import Mathlib

/-!
Verification of the continuous voice-conversation core of the
aura-engage-interface backend: the sentence segmenter
(app/services/streaming_handler.py), the two voice-activity detectors
(app/services/voice_activity_detector.py and
app/services/enhanced_voice_activity_detector.py) and the conversation
session orchestrator (app/services/continuous_conversation.py).

Strings are embedded as List Char, byte buffers as List Int, wall-clock
times and float thresholds as exact rationals.
-/

set_option maxRecDepth 100000

namespace Aura

/-- Convert a Lean string literal to the List Char representation used
throughout this development. -/
def chars (s : String) : List Char := s.data

/-- Whitespace characters recognised by the Python str.strip method and by
the regex class backslash-s (ASCII part). -/
def isPySpace (c : Char) : Bool :=
  c = ' ' ∨ c = '\t' ∨ c = '\n' ∨ c = '\r' ∨ c = '\x0b' ∨ c = '\x0c'

/-- Python str.strip(): remove leading and trailing whitespace. -/
def pyStrip (s : List Char) : List Char :=
  ((s.dropWhile isPySpace).reverse.dropWhile isPySpace).reverse

/-- Delete every whitespace character of a string; used to compare texts
up to whitespace. -/
def stripAllSpace (s : List Char) : List Char :=
  s.filter (fun c => ! isPySpace c)

/-- Sentence-ending punctuation of the regex [.!?] in streaming_handler.py. -/
def isSentEnd (c : Char) : Bool := c = '.' ∨ c = '!' ∨ c = '?'

/-- Soft-boundary punctuation of the regex [,;:] in streaming_handler.py. -/
def isSoftEnd (c : Char) : Bool := c = ',' ∨ c = ';' ∨ c = ':'

/-- Condition for a regex match of punct-class followed by whitespace to
start at the current character: the character is in the class and the
next character exists and is whitespace. -/
def matchStartsHere (punct : Char → Bool) (c : Char) (rest : List Char) : Bool :=
  punct c && (match rest with | r :: _ => isPySpace r | [] => false)

/-- Fueled left-to-right scan of re.finditer for a pattern of the shape
punct-class followed by one or more whitespace characters.  Returns the
list of text slices from the previous match end to each match end
(so their concatenation covers the text up to the last match end),
together with the text after the last match end.  The accumulator holds
the characters read since the last match end, in reverse.  The fuel only
makes the recursion structural; any fuel of at least the text length
gives the scan result. -/
def splitB (punct : Char → Bool) : Nat → List Char → List Char → List (List Char) × List Char
  | 0, acc, l => ([], acc.reverse ++ l)
  | _ + 1, acc, [] => ([], acc.reverse)
  | fuel + 1, acc, c :: rest =>
    if matchStartsHere punct c rest then
      let ws := rest.takeWhile isPySpace
      let rest2 := rest.dropWhile isPySpace
      let p := splitB punct fuel [] rest2
      ((acc.reverse ++ c :: ws) :: p.1, p.2)
    else
      splitB punct fuel (c :: acc) rest

/-- Scan a text for all matches of punct-class followed by whitespace,
as re.finditer does. -/
def splitAtBoundaries (punct : Char → Bool) (acc : List Char) (l : List Char) :
    List (List Char) × List Char :=
  splitB punct l.length acc l

/-- Translation of StreamingHandler.detect_sentence_boundary: find the
matches of the sentence-ending pattern, emit each stripped nonempty slice
as a complete sentence, and return the stripped tail as the remaining
partial sentence; with no match at all the text is returned unchanged. -/
def detect_sentence_boundary (text : List Char) : List (List Char) × List Char :=
  let p := splitAtBoundaries isSentEnd [] text
  if p.1.isEmpty then ([], text)
  else ((p.1.map pyStrip).filter (fun s => ! s.isEmpty), pyStrip p.2)

/-- Configured minimum chunk size of StreamingHandler (min_chunk_size). -/
def min_chunk_size : Nat := 50

/-- Configured maximum chunk size of StreamingHandler (max_chunk_size). -/
def max_chunk_size : Nat := 200

/-- One iteration of the token loop of StreamingHandler.stream_llm_to_tts:
append the incoming token to the sentence buffer, emit every complete
sentence, then apply the oversize check, which force-emits the buffer up
to the last soft boundary when one exists.  Returns the speakable-unit
texts handed to synthesis during this iteration and the new value of the
sentence buffer. -/
def streamFeedToken (buffer tok : List Char) : List (List Char) × List Char :=
  let buf := buffer ++ tok
  let d := detect_sentence_boundary buf
  let units := d.1.filter (fun s => ! (pyStrip s).isEmpty)
  if d.2.length > max_chunk_size then
    let q := splitAtBoundaries isSoftEnd [] d.2
    if ¬ q.1.isEmpty ∧ d.2.length > min_chunk_size then
      (units ++ [pyStrip q.1.flatten], pyStrip q.2)
    else (units, d.2)
  else (units, d.2)

/-- Fold step of the token loop: extend the emitted units and carry the
sentence buffer. -/
def streamStep (st : List (List Char) × List Char) (tok : List Char) :
    List (List Char) × List Char :=
  let r := streamFeedToken st.2 tok
  (st.1 ++ r.1, r.2)

/-- Run the whole of stream_llm_to_tts on a finite token stream: fold the
per-token step over the stream, then flush any nonempty stripped remainder
as a final speakable unit.  Returns the speakable-unit texts in emission
order. -/
def streamRun (toks : List (List Char)) : List (List Char) :=
  let p := toks.foldl streamStep ([], [])
  if ¬ (pyStrip p.2).isEmpty then p.1 ++ [pyStrip p.2] else p.1

example : streamRun [chars "Hello world. How are", chars " you?"] =
    [chars "Hello world.", chars "How are you?"] := by decide

/-!
Exact rational numbers used to embed the float constants, float
timestamps and ratio computations of the Python source.  A float literal
is embedded by the exact rational value of its IEEE binary64
representation (e.g. 0.8 by 3602879701896397 / 2^52), so decimal
literals that are not binary-representable keep their real machine
value.  Comparisons are by cross multiplication, so the fractions never
need normalising and all operations compute by kernel reduction; the
denominator is kept positive by construction.
-/

/-- Fraction num / den with a natural denominator. -/
structure Frac where
  num : Int
  den : Nat
deriving DecidableEq, Repr

/-- Embed a natural number as a fraction. -/
def Frac.ofNat (n : Nat) : Frac := ⟨n, 1⟩

/-- Comparison a ≤ b of fractions by cross multiplication. -/
def Frac.le (a b : Frac) : Bool := a.num * b.den ≤ b.num * a.den

/-- Comparison a < b of fractions by cross multiplication. -/
def Frac.lt (a b : Frac) : Bool := a.num * b.den < b.num * a.den

/-- Difference a - b of fractions. -/
def Frac.sub (a b : Frac) : Frac := ⟨a.num * b.den - b.num * a.den, a.den * b.den⟩

/-- Python float truthiness: a float is truthy when it is nonzero. -/
def Frac.truthy (a : Frac) : Bool := a.num ≠ 0

/-- Python truthiness of an optional timestamp, as in the expression
`self.speech_start_time and ...`: None and 0.0 are falsy. -/
def timeTruthy : Option Frac → Bool
  | none => false
  | some t => t.truthy

/-- Deque append with a maximum length, as collections.deque(maxlen) does:
append on the right, dropping from the left beyond the bound. -/
def pushRing (maxlen : Nat) (rb : List Nat) (x : Nat) : List Nat :=
  let r := rb ++ [x]
  r.drop (r.length - maxlen)

/-!
Embedding of EnhancedVoiceActivityDetector
(app/services/enhanced_voice_activity_detector.py).  The per-frame
classifier self.vad.is_speech is an external collaborator (webrtcvad or
the mock); it is passed in as a function returning Option Bool, where
none models the classifier raising an exception.  The wall-clock reading
time.time() is passed in as the argument now.  Audio byte strings are
List Int.
-/

/-- Mutable state of an EnhancedVoiceActivityDetector instance. -/
structure EnhancedVADState where
  sample_rate : Nat
  frame_duration : Nat
  frame_length : Nat
  frame_bytes : Nat
  ring_buffer : List Nat
  speech_frames : List (List Int)
  silence_frames : List (List Int)
  is_in_speech : Bool
  speech_start_time : Option Frac
  last_speech_time : Option Frac
  speech_threshold : Frac
  silence_threshold : Frac
  min_speech_frames : Nat
  max_silence_frames : Nat
  min_speech_duration : Frac
  stats_total_frames : Nat
  stats_speech_frames : Nat
  stats_silence_frames : Nat
  stats_speech_segments : Nat
deriving DecidableEq, Repr

/-- Constructor EnhancedVoiceActivityDetector.__init__ with the given
sample rate and frame duration (defaults 16000 and 30 in the source).
The float thresholds 0.6, 0.8 and 0.3 are embedded by the exact values
of their IEEE binary64 representations: 0.6 is 5404319552844595 / 2^53,
0.8 is 3602879701896397 / 2^52 and 0.3 is 5404319552844595 / 2^54.
In particular the end-of-speech bound 1 - 0.8, whose IEEE subtraction is
exact, is 900719925474099 / 2^52, strictly below one fifth, so a speech
ratio of exactly 0.2 does not end an utterance — matching the float
program.  With these constants every threshold comparison of the model
agrees with the corresponding double comparison of the program at every
reachable ring ratio: the ring holds at most 50 votes, and the only
fractions with denominator at most 50 lying within a half ulp of a
threshold are the exact fifths (ratio 0.2 against 1 - 0.8, ratio 0.6
against 0.6), where the double division rounds to 0.200000000000000011
and to the 0.6 literal itself respectively, on the same side of the
threshold as the exact value. -/
def EnhancedVADState.init (sample_rate frame_duration : Nat) : EnhancedVADState :=
  { sample_rate := sample_rate
    frame_duration := frame_duration
    frame_length := sample_rate * frame_duration / 1000
    frame_bytes := sample_rate * frame_duration / 1000 * 2
    ring_buffer := []
    speech_frames := []
    silence_frames := []
    is_in_speech := false
    speech_start_time := none
    last_speech_time := none
    speech_threshold := ⟨5404319552844595, 9007199254740992⟩
    silence_threshold := ⟨3602879701896397, 4503599627370496⟩
    min_speech_frames := 8
    max_silence_frames := 20
    min_speech_duration := ⟨5404319552844595, 18014398509481984⟩
    stats_total_frames := 0
    stats_speech_frames := 0
    stats_silence_frames := 0
    stats_speech_segments := 0 }

/-- Translation of EnhancedVoiceActivityDetector.process_audio_chunk, the
per-frame entry point used by the conversation loop.  Returns the updated
state and the triple (is_speaking, speech_complete, accumulated_audio).
A frame of the wrong size and a classifier exception both return
(False, False, None) after only bumping the total-frames counter, as in
the source (the classifier exception is caught there and logged). -/
def EnhancedVADState.process_audio_chunk (cls : List Int → Nat → Option Bool)
    (now : Frac) (st0 : EnhancedVADState) (audio_chunk : List Int) :
    EnhancedVADState × (Bool × Bool × Option (List Int)) :=
  let st := { st0 with stats_total_frames := st0.stats_total_frames + 1 }
  if audio_chunk.length ≠ st0.frame_bytes then (st, (false, false, none))
  else
    match cls audio_chunk st0.sample_rate with
    | none => (st, (false, false, none))
    | some is_speech =>
      let st := { st with
        ring_buffer := pushRing 50 st.ring_buffer (if is_speech then 1 else 0) }
      let st :=
        if is_speech then
          { st with stats_speech_frames := st.stats_speech_frames + 1,
                    speech_frames := st.speech_frames ++ [audio_chunk],
                    silence_frames := [] }
        else
          { st with stats_silence_frames := st.stats_silence_frames + 1,
                    silence_frames := st.silence_frames ++ [audio_chunk] }
      let speechRa : Frac :=
        if st.ring_buffer.isEmpty then ⟨0, 1⟩
        else ⟨(st.ring_buffer.sum : Int), st.ring_buffer.length⟩
      if ¬ st.is_in_speech ∧ Frac.le st.speech_threshold speechRa then
        if st.speech_frames.length ≥ st.min_speech_frames then
          let st := { st with is_in_speech := true, speech_start_time := some now }
          (st, (st.is_in_speech, false, none))
        else (st, (st.is_in_speech, false, none))
      else if st.is_in_speech ∧
          Frac.le speechRa (Frac.sub (Frac.ofNat 1) st.silence_threshold) then
        if st.silence_frames.length ≥ st.max_silence_frames then
          if timeTruthy st.speech_start_time ∧
              Frac.le st.min_speech_duration
                (Frac.sub now (st.speech_start_time.getD ⟨0, 1⟩)) then
            let complete_audio := st.speech_frames.flatten
            let st := { st with is_in_speech := false,
                                last_speech_time := some now,
                                speech_frames := [],
                                stats_speech_segments := st.stats_speech_segments + 1 }
            (st, (false, true, some complete_audio))
          else
            let st := { st with speech_frames := [], is_in_speech := false }
            (st, (st.is_in_speech, false, none))
        else (st, (st.is_in_speech, false, none))
      else (st, (st.is_in_speech, false, none))

/-!
Embedding of VoiceActivityDetector
(app/services/voice_activity_detector.py), the simple detector named by
the conversation manager.  It performs no frame-size validation and does
not guard the classifier call, so a classifier exception propagates out
of process_audio_chunk; the Option result models this, none meaning the
call raises.
-/

/-- Mutable state of a VoiceActivityDetector instance. -/
structure VADState where
  sample_rate : Nat
  frame_duration : Nat
  ring_buffer : List Nat
  triggered : Bool
  voiced_frames : List (List Int)
  silence_threshold : Frac
  speech_threshold : Frac
deriving DecidableEq, Repr

/-- Constructor VoiceActivityDetector.__init__ (defaults 16000 and 30). -/
def VADState.init : VADState :=
  { sample_rate := 16000
    frame_duration := 30
    ring_buffer := []
    triggered := false
    voiced_frames := []
    silence_threshold := ⟨8, 10⟩
    speech_threshold := ⟨7, 10⟩ }

/-- Translation of VoiceActivityDetector.process_audio_chunk.  The result
is none when the classifier raises, in which case the exception escapes
the detector (there is no try/except in this method). -/
def VADState.process_audio_chunk (cls : List Int → Nat → Option Bool)
    (st0 : VADState) (audio_chunk : List Int) :
    Option (VADState × (Bool × Bool × Option (List Int))) :=
  match cls audio_chunk st0.sample_rate with
  | none => none
  | some is_speech =>
    let st := { st0 with
      ring_buffer := pushRing 10 st0.ring_buffer (if is_speech then 1 else 0) }
    let pct : Frac := ⟨(st.ring_buffer.sum : Int), st.ring_buffer.length⟩
    if ¬ st.triggered then
      if Frac.lt st.speech_threshold pct then
        some ({ st with triggered := true, voiced_frames := [audio_chunk] },
              (true, false, none))
      else some (st, (false, false, none))
    else
      let st := { st with voiced_frames := st.voiced_frames ++ [audio_chunk] }
      if Frac.lt pct st.silence_threshold then
        some ({ st with triggered := false, voiced_frames := [] },
              (false, true, some st.voiced_frames.flatten))
      else some (st, (true, false, none))

/-- Model of the external webrtcvad classifier used by
VoiceActivityDetector: it raises on any frame whose byte length is not
10, 20 or 30 ms of 16-bit samples at the sample rate, and otherwise
classifies the frame (here: speech when some sample is nonzero). -/
def webrtcIsSpeech (frame : List Int) (rate : Nat) : Option Bool :=
  if frame.length = rate * 10 / 1000 * 2 ∨ frame.length = rate * 20 / 1000 * 2 ∨
      frame.length = rate * 30 / 1000 * 2 then
    some (frame.any (fun b => b ≠ 0))
  else none

/-- Sum a + b of fractions. -/
def Frac.add (a b : Frac) : Frac := ⟨a.num * b.den + b.num * a.den, a.den * b.den⟩

/-!
Embedding of ContinuousConversationManager
(app/services/continuous_conversation.py).  One session runs two
cooperating asyncio tasks over shared session state: the receive loop
(_receive_audio_stream) and the process loop (_process_audio_stream).
The embedding is a transition system: a schedule interleaves single
iterations of the two loops.  One process-loop iteration is taken as one
atomic transition: within an iteration the only interleaving the event
loop allows is the receive task running at an await point, and the
receive task only appends to the audio buffer and refreshes
last_activity, which the rest of the iteration never reads again after
its initial pop, and only the process task itself ever writes
is_ai_speaking (the receive loop never touches it).  External
collaborators (transcription, the streaming LLM, synthesis) are total
oracles; the per-frame VAD classifier may signal an exception (none),
which the plain VoiceActivityDetector used here propagates into the
process loop where the loop-boundary except catches it and breaks.
The tenant context of the session is empty (session context falsy), as
when no tenant manager is wired in.
-/

/-- Role of a turn of the conversation history. -/
inductive Role
  | user
  | assistant
deriving DecidableEq, Repr

/-- One entry of session conversation_history: a dict with keys role,
content and timestamp. -/
structure Turn where
  role : Role
  content : List Char
  timestamp : Frac
deriving DecidableEq, Repr

/-- Inbound transport message for the receive loop.  other stands for any
JSON message whose type is neither audio_chunk nor end_call (the loop
ignores it); malformed stands for a message on which receive_json or the
key lookup raises. -/
inductive InMsg
  | audio_chunk (audio : List Int)
  | end_call
  | other
  | malformed
deriving DecidableEq, Repr

/-- Outbound websocket message (send_json payloads of the source). -/
inductive OutMsg
  | greeting (text audio : List Char)
  | user_transcript (text : List Char)
  | ai_audio (audio text : List Char)
  | ai_interrupted
  | ai_complete (full_response : List Char)
  | ping (timestamp : Frac)
deriving DecidableEq, Repr

/-- External collaborators of the session, as total oracles: the
transcription adapter (voice_pipeline.transcribe_audio, returning the
text field), the streaming LLM (smart_router.route_message_stream, a
finite token stream per prompt) and speech synthesis
(voice_pipeline.synthesize_speech, returning audio_base64). -/
structure Collaborators where
  transcribe : List Int → List Char
  route_message_stream : List Char → List (List Char)
  synthesize_speech : List Char → List Char

/-- Shared per-session state: the session dict of the source plus the
transport (inbox of pending inbound messages, out list of sent messages),
a clock for time.time readings, and one done flag per loop recording that
the loop has exited. -/
structure SessionState where
  conversation_history : List Turn
  is_ai_speaking : Bool
  audio_buffer : List (List Int)
  last_activity : Frac
  vad : VADState
  inbox : List InMsg
  out : List OutMsg
  clock : Frac
  recvDone : Bool
  procDone : Bool
deriving DecidableEq, Repr

/-- Configuration flag allow_interruptions of the manager (always True in
the source constructor). -/
def allow_interruptions : Bool := true

/-- Window of the most recent ten turns, the Python slice [-10:] used by
_build_conversation_context. -/
def recentHistory (h : List Turn) : List Turn := h.drop (h.length - 10)

/-- Translation of _build_conversation_context: render the last ten turns,
or a fixed line when the history is empty. -/
def buildConversationContext (st : SessionState) : List Char :=
  let recent := recentHistory st.conversation_history
  if recent.isEmpty then chars "This is the start of the conversation."
  else
    chars "Recent conversation:\n" ++
      (recent.map (fun m =>
        (if m.role = Role.user then chars "User" else chars "AI") ++
          chars ": " ++ m.content ++ ['\n'])).flatten

/-- Prompt assembled by _generate_and_speak_response from the context and
the user input (the tenant-context suffix is absent: empty session
context). -/
def fullPrompt (st : SessionState) (user_input : List Char) : List Char :=
  buildConversationContext st ++ chars "\n\nUser: " ++ user_input ++
    chars "\n\nAssistant:"

/-- Check of _generate_and_speak_response for a complete sentence:
any(punct in sentence_buffer for punct in [. ! ?]). -/
def sentenceInBuffer (s : List Char) : Bool := s.any isSentEnd

/-- Whether the externally forced flag flip (the barge-in that
_handle_interruption would perform) has happened before the loop
iteration that consumes the token of index k: with intr = some j the
flag is observed false from the iteration of index j on; with none the
flag stays true throughout. -/
def genFlip (intr : Option Nat) (k : Nat) : Bool :=
  match intr with
  | none => false
  | some j => j ≤ k

/-- Token-consumption loop of _generate_and_speak_response: for each
token, first test is_ai_speaking (break when it was flipped), then extend
response_text and sentence_buffer, and when the buffer holds
sentence-ending punctuation synthesize its stripped content and send it.
Returns the ai_audio messages sent, the response text so far and the
final sentence buffer. -/
def genLoopGo (C : Collaborators) (intr : Option Nat) :
    Nat → List Char → List Char → List (List Char) →
      List OutMsg × List Char × List Char
  | _, resp, buf, [] => ([], resp, buf)
  | k, resp, buf, tok :: toks =>
    if genFlip intr k then ([], resp, buf)
    else
      let resp2 := resp ++ tok
      let buf2 := buf ++ tok
      if sentenceInBuffer buf2 then
        let text := pyStrip buf2
        let p := genLoopGo C intr (k + 1) resp2 [] toks
        (OutMsg.ai_audio (C.synthesize_speech text) text :: p.1, p.2)
      else
        genLoopGo C intr (k + 1) resp2 buf2 toks

/-- Translation of _generate_and_speak_response: set is_ai_speaking, run
the token loop, synthesize and send any nonempty stripped remainder of
the sentence buffer, append the assembled response text to the history as
an assistant turn, clear is_ai_speaking and send the completion signal.
The parameter intr places the externally forced flag flip, as
_handle_interruption running concurrently would; the conversation loop
itself always passes none (see the no-interruption theorems). -/
def generateAndSpeakResponse (C : Collaborators) (intr : Option Nat)
    (st0 : SessionState) (user_input : List Char) : SessionState :=
  let st := { st0 with is_ai_speaking := true }
  let toks := C.route_message_stream (fullPrompt st user_input)
  let g := genLoopGo C intr 0 [] [] toks
  let response_text := g.2.1
  let sentence_buffer := g.2.2
  let msgs :=
    if ¬ (pyStrip sentence_buffer).isEmpty then
      g.1 ++ [OutMsg.ai_audio (C.synthesize_speech (pyStrip sentence_buffer))
                (pyStrip sentence_buffer)]
    else g.1
  { st with
    conversation_history := st.conversation_history ++
      [⟨Role.assistant, response_text, st.clock⟩],
    is_ai_speaking := false,
    out := st.out ++ msgs ++ [OutMsg.ai_complete response_text] }

/-- Translation of _handle_user_speech: transcribe the completed
utterance; an empty text returns at once (the falsiness test
`if not transcription.text`); otherwise append a user turn, send the
transcript event and generate the response. -/
def handleUserSpeech (C : Collaborators) (st0 : SessionState)
    (audio_data : List Int) : SessionState :=
  let text := C.transcribe audio_data
  if text.isEmpty then st0
  else
    let st := { st0 with
      conversation_history := st0.conversation_history ++
        [⟨Role.user, text, st0.clock⟩],
      out := st0.out ++ [OutMsg.user_transcript text] }
    generateAndSpeakResponse C none st text

/-- Translation of _handle_interruption: clear is_ai_speaking, send the
interruption signal and clear the pending audio buffer. -/
def handleInterruption (st : SessionState) : SessionState :=
  { st with is_ai_speaking := false,
            out := st.out ++ [OutMsg.ai_interrupted],
            audio_buffer := [] }

/-- Python truthiness of the optional audio payload in the test
`if speech_complete and complete_audio`. -/
def truthyBytes : Option (List Int) → Bool
  | none => false
  | some b => ¬ b.isEmpty

/-- Keepalive check at the end of each process-loop iteration: when more
than thirty seconds passed since the last activity, send a ping and
refresh last_activity. -/
def procTimeoutCheck (st : SessionState) : SessionState :=
  if Frac.lt (Frac.ofNat 30) (Frac.sub st.clock st.last_activity) then
    { st with out := st.out ++ [OutMsg.ping st.clock], last_activity := st.clock }
  else st

/-- One iteration of the while-True body of _process_audio_stream: when
the buffer is nonempty and the assistant is not speaking, pop the first
chunk and run the VAD on it; a completed nonempty utterance goes to
_handle_user_speech, while a frame on which the VAD raises makes the
loop-boundary except break the loop; otherwise, when the VAD reports the
user speaking while the assistant speaks and interruptions are allowed,
_handle_interruption runs.  Each surviving iteration ends with the
keepalive check. -/
def procIter (C : Collaborators) (cls : List Int → Nat → Option Bool)
    (st0 : SessionState) : SessionState :=
  if ¬ st0.audio_buffer.isEmpty ∧ ¬ st0.is_ai_speaking then
    match st0.audio_buffer with
    | [] => procTimeoutCheck st0
    | audio_chunk :: rest =>
      let st := { st0 with audio_buffer := rest }
      match VADState.process_audio_chunk cls st0.vad audio_chunk with
      | none => { st with procDone := true }
      | some (vad2, res) =>
        let st := { st with vad := vad2 }
        procTimeoutCheck
          (if res.2.1 ∧ truthyBytes res.2.2 then
            handleUserSpeech C st (res.2.2.getD [])
          else if res.1 then
            (if st.is_ai_speaking ∧ allow_interruptions then handleInterruption st
             else st)
          else st)
  else procTimeoutCheck st0

/-- One iteration of the while-True body of _receive_audio_stream: an
audio chunk is appended to the shared buffer, end_call breaks the loop,
other messages are ignored, and an exception while receiving is caught,
logged and breaks the loop.  An empty inbox models the receive await
pending, with no effect. -/
def recvIter (st0 : SessionState) : SessionState :=
  match st0.inbox with
  | [] => st0
  | m :: rest =>
    let st := { st0 with inbox := rest }
    match m with
    | InMsg.audio_chunk audio =>
      { st with audio_buffer := st.audio_buffer ++ [audio],
                last_activity := st.clock }
    | InMsg.end_call => { st with recvDone := true }
    | InMsg.other => st
    | InMsg.malformed => { st with recvDone := true }

/-- Default greeting text of _send_greeting (no tenant organization). -/
def greetingText : List Char :=
  chars "Hello! I\x27m AURA, your AI assistant. How can I help you today?"

/-- Translation of _send_greeting: synthesize the greeting, send it and
append it to the history as an assistant turn. -/
def sendGreeting (C : Collaborators) (st : SessionState) : SessionState :=
  let audio := C.synthesize_speech greetingText
  { st with
    out := st.out ++ [OutMsg.greeting greetingText audio],
    conversation_history := st.conversation_history ++
      [⟨Role.assistant, greetingText, st.clock⟩] }

/-- Fresh session state as built by start_continuous_session. -/
def initSession (inbox : List InMsg) : SessionState :=
  { conversation_history := []
    is_ai_speaking := false
    audio_buffer := []
    last_activity := ⟨0, 1⟩
    vad := VADState.init
    inbox := inbox
    out := []
    clock := ⟨0, 1⟩
    recvDone := false
    procDone := false }

/-- Scheduler choice for one transition: run one iteration of the receive
loop or of the process loop, first advancing the clock by dt (the time
spent suspended at the await points of that iteration). -/
inductive Sched
  | recv (dt : Frac)
  | proc (dt : Frac)

/-- One transition of the interleaving semantics.  A loop that has exited
(its done flag set) makes no further transitions. -/
def sessionStep (C : Collaborators) (cls : List Int → Nat → Option Bool)
    (st0 : SessionState) : Sched → SessionState
  | Sched.recv dt =>
    let st := { st0 with clock := Frac.add st0.clock dt }
    if st.recvDone then st else recvIter st
  | Sched.proc dt =>
    let st := { st0 with clock := Frac.add st0.clock dt }
    if st.procDone then st else procIter C cls st

/-- Translation of start_continuous_session: build the session, send the
greeting, then run the conversation loop, here along a given interleaving
schedule. -/
def startContinuousSession (C : Collaborators)
    (cls : List Int → Nat → Option Bool) (inbox : List InMsg)
    (scheds : List Sched) : SessionState :=
  scheds.foldl (sessionStep C cls) (sendGreeting C (initSession inbox))

/-!
Lemmas about the boundary scan and whitespace stripping, leading to the
reconstruction property of the sentence segmenter.
-/

/-- The slices produced by the boundary scan, concatenated with its tail,
reproduce the accumulator followed by the scanned text, for every fuel. -/
theorem splitB_flatten (punct : Char → Bool) :
    ∀ (fuel : Nat) (acc l : List Char),
      (splitB punct fuel acc l).1.flatten ++ (splitB punct fuel acc l).2 =
        acc.reverse ++ l := by
  intro fuel
  induction fuel with
  | zero => intro acc l; simp [splitB]
  | succ n ih =>
    intro acc l
    cases l with
    | nil => simp [splitB]
    | cons c rest =>
      by_cases h : matchStartsHere punct c rest
      · have hws : rest.takeWhile isPySpace ++ rest.dropWhile isPySpace = rest :=
          List.takeWhile_append_dropWhile _ _
        simp only [splitB, h, if_pos, List.flatten_cons]
        rw [List.append_assoc, ih [] (rest.dropWhile isPySpace)]
        simp [hws]
      · simp only [splitB, h, if_neg, Bool.false_eq_true, not_false_iff]
        rw [ih (c :: acc) rest]
        simp

/-- A text without any character of the punctuation class has no match. -/
theorem splitB_no_punct (punct : Char → Bool) :
    ∀ (fuel : Nat) (acc l : List Char), (∀ c ∈ l, punct c = false) →
      splitB punct fuel acc l = ([], acc.reverse ++ l) := by
  intro fuel
  induction fuel with
  | zero => intro acc l _; simp [splitB]
  | succ n ih =>
    intro acc l h
    cases l with
    | nil => simp [splitB]
    | cons c rest =>
      have hc : punct c = false := h c (by simp)
      have hm : matchStartsHere punct c rest = false := by
        simp [matchStartsHere, hc]
      simp only [splitB, hm, Bool.false_eq_true, if_neg, not_false_iff]
      rw [ih (c :: acc) rest (fun x hx => h x (by simp [hx]))]
      simp

/-- Filtering with the negation of a predicate ignores a dropWhile by that
predicate. -/
theorem filter_not_dropWhile (q : Char → Bool) :
    ∀ l : List Char, (l.dropWhile q).filter (fun c => ! q c) =
      l.filter (fun c => ! q c) := by
  intro l
  induction l with
  | nil => rfl
  | cons a t ih =>
    by_cases h : q a
    · simp [List.dropWhile_cons, h, ih, List.filter_cons]
    · simp [List.dropWhile_cons, h, List.filter_cons]

/-- Stripping edge whitespace does not change the whitespace-free content. -/
theorem stripAllSpace_pyStrip (s : List Char) :
    stripAllSpace (pyStrip s) = stripAllSpace s := by
  unfold pyStrip stripAllSpace
  rw [List.filter_reverse, filter_not_dropWhile, List.filter_reverse,
    List.reverse_reverse, filter_not_dropWhile]

/-- Whitespace-free content distributes over concatenation. -/
theorem stripAllSpace_append (a b : List Char) :
    stripAllSpace (a ++ b) = stripAllSpace a ++ stripAllSpace b :=
  List.filter_append a b

/-- A string that strips to nothing is pure whitespace. -/
theorem stripAllSpace_of_pyStrip_nil (s : List Char) (h : pyStrip s = []) :
    stripAllSpace s = [] := by
  rw [← stripAllSpace_pyStrip, h]; rfl

/-- Dropping the lists that are literally empty does not change a
concatenation. -/
theorem flatten_filter_nonempty (xs : List (List Char)) :
    (xs.filter (fun s => ! s.isEmpty)).flatten = xs.flatten := by
  induction xs with
  | nil => rfl
  | cons a t ih =>
    by_cases h : a.isEmpty
    · have : a = [] := List.isEmpty_iff.mp h
      simp [List.filter_cons, h, ih, this]
    · simp [List.filter_cons, h, ih]

/-- Stripping each piece does not change the whitespace-free content of
the concatenation. -/
theorem stripAllSpace_flatten_map_pyStrip (xs : List (List Char)) :
    stripAllSpace (xs.map pyStrip).flatten = stripAllSpace xs.flatten := by
  induction xs with
  | nil => rfl
  | cons a t ih =>
    simp [stripAllSpace_append, stripAllSpace_pyStrip, ih]

/-- Dropping the pieces that strip to nothing does not change the
whitespace-free content of the concatenation. -/
theorem stripAllSpace_flatten_filter_strip (xs : List (List Char)) :
    stripAllSpace ((xs.filter (fun s => ! (pyStrip s).isEmpty)).flatten) =
      stripAllSpace xs.flatten := by
  induction xs with
  | nil => rfl
  | cons a t ih =>
    by_cases h : (pyStrip a).isEmpty
    · have ha : stripAllSpace a = [] :=
        stripAllSpace_of_pyStrip_nil a (List.isEmpty_iff.mp h)
      simp [List.filter_cons, h, stripAllSpace_append, ha, ih]
    · simp [List.filter_cons, h, stripAllSpace_append, ih]

/-- detect_sentence_boundary loses only edge whitespace: the emitted
sentences and the remainder carry the whitespace-free content of the
input. -/
theorem detect_sentence_boundary_preserves (text : List Char) :
    stripAllSpace ((detect_sentence_boundary text).1.flatten ++
        (detect_sentence_boundary text).2) = stripAllSpace text := by
  unfold detect_sentence_boundary
  have hsplit := splitB_flatten isSentEnd text.length [] text
  by_cases h : (splitAtBoundaries isSentEnd [] text).1.isEmpty
  · simp [h]
  · simp only [h, if_neg, Bool.false_eq_true, not_false_iff,
      stripAllSpace_append]
    rw [flatten_filter_nonempty, stripAllSpace_flatten_map_pyStrip,
      stripAllSpace_pyStrip, ← stripAllSpace_append]
    unfold splitAtBoundaries
    rw [hsplit]
    simp

/-- One iteration of the token loop preserves the whitespace-free content:
what was emitted plus what stays buffered carries exactly the content of
the previous buffer and the new token. -/
theorem streamFeedToken_preserves (buffer tok : List Char) :
    stripAllSpace ((streamFeedToken buffer tok).1.flatten ++
        (streamFeedToken buffer tok).2) = stripAllSpace (buffer ++ tok) := by
  have hd := detect_sentence_boundary_preserves (buffer ++ tok)
  have hbase : stripAllSpace
      (((detect_sentence_boundary (buffer ++ tok)).1.filter
          (fun s => ! (pyStrip s).isEmpty)).flatten ++
        (detect_sentence_boundary (buffer ++ tok)).2) =
      stripAllSpace (buffer ++ tok) := by
    rw [stripAllSpace_append, stripAllSpace_flatten_filter_strip,
      ← stripAllSpace_append, hd]
  simp only [streamFeedToken]
  split
  · split
    · have hsoft : (splitAtBoundaries isSoftEnd []
          (detect_sentence_boundary (buffer ++ tok)).2).1.flatten ++
            (splitAtBoundaries isSoftEnd []
              (detect_sentence_boundary (buffer ++ tok)).2).2 =
          (detect_sentence_boundary (buffer ++ tok)).2 := by
        unfold splitAtBoundaries
        simpa using splitB_flatten isSoftEnd
          (detect_sentence_boundary (buffer ++ tok)).2.length []
          (detect_sentence_boundary (buffer ++ tok)).2
      rw [List.flatten_append, List.flatten_cons, List.flatten_nil,
        List.append_nil, List.append_assoc, stripAllSpace_append,
        stripAllSpace_flatten_filter_strip, stripAllSpace_append,
        stripAllSpace_pyStrip, stripAllSpace_pyStrip, ← stripAllSpace_append,
        hsoft, ← stripAllSpace_append, hd]
    · exact hbase
  · exact hbase

/-- Fold form of the preservation invariant over a whole token stream. -/
theorem streamFold_preserves :
    ∀ (toks : List (List Char)) (acc : List (List Char)) (buf : List Char),
      stripAllSpace ((toks.foldl streamStep (acc, buf)).1.flatten ++
          (toks.foldl streamStep (acc, buf)).2) =
        stripAllSpace (acc.flatten ++ buf ++ toks.flatten) := by
  intro toks
  induction toks with
  | nil => intro acc buf; simp
  | cons t ts ih =>
    intro acc buf
    simp only [List.foldl_cons, streamStep]
    rw [ih]
    have hstep : stripAllSpace ((streamFeedToken buf t).1.flatten) ++
        stripAllSpace ((streamFeedToken buf t).2) =
          stripAllSpace buf ++ stripAllSpace t := by
      have h0 := streamFeedToken_preserves buf t
      rw [stripAllSpace_append, stripAllSpace_append] at h0
      exact h0
    simp only [List.flatten_append, List.flatten_cons, stripAllSpace_append,
      List.append_assoc]
    congr 1
    rw [← List.append_assoc, ← List.append_assoc, hstep]

/-!
Lemmas about the response-generation loop of the conversation session.
-/

/-- Number of tokens the token loop starting at index k consumes from a
stream of n tokens: all of them when no flag flip occurs, and j - k of
them when the flip is scheduled at j. -/
def takeCount (intr : Option Nat) (k n : Nat) : Nat :=
  match intr with
  | none => n
  | some j => j - k

/-- Response text assembled by the token loop: the concatenation of the
consumed prefix of the token stream. -/
theorem genLoopGo_response (C : Collaborators) (intr : Option Nat) :
    ∀ (toks : List (List Char)) (k : Nat) (resp buf : List Char),
      (genLoopGo C intr k resp buf toks).2.1 =
        resp ++ (toks.take (takeCount intr k toks.length)).flatten := by
  intro toks
  induction toks with
  | nil => intro k resp buf; cases intr <;> simp [genLoopGo]
  | cons t ts ih =>
    intro k resp buf
    by_cases hf : genFlip intr k
    · cases intr with
      | none => simp [genFlip] at hf
      | some j =>
        have hj : takeCount (some j) k (ts.length + 1) = 0 := by
          simp only [genFlip, decide_eq_true_eq] at hf
          simp only [takeCount]
          omega
        simp [genLoopGo, hf, hj]
    · cases intr with
      | none =>
        by_cases hs : sentenceInBuffer (buf ++ t)
        · simp [genLoopGo, hf, hs, ih, takeCount, List.take_length]
        · simp [genLoopGo, hf, hs, ih, takeCount, List.take_length]
      | some j =>
        have hj : takeCount (some j) k (ts.length + 1) =
            takeCount (some j) (k + 1) ts.length + 1 := by
          simp only [genFlip, decide_eq_true_eq] at hf
          simp only [takeCount]
          omega
        by_cases hs : sentenceInBuffer (buf ++ t)
        · simp only [List.length_cons]
          rw [hj]
          simp [genLoopGo, hf, hs, ih]
        · simp only [List.length_cons]
          rw [hj]
          simp [genLoopGo, hf, hs, ih]

/-- The token loop emits audio messages only. -/
theorem genLoopGo_no_interruption (C : Collaborators) (intr : Option Nat) :
    ∀ (toks : List (List Char)) (k : Nat) (resp buf : List Char),
      OutMsg.ai_interrupted ∉ (genLoopGo C intr k resp buf toks).1 := by
  intro toks
  induction toks with
  | nil => intro k resp buf; simp [genLoopGo]
  | cons t ts ih =>
    intro k resp buf
    by_cases hf : genFlip intr k
    · simp [genLoopGo, hf]
    · by_cases hs : sentenceInBuffer (buf ++ t)
      · simp [genLoopGo, hf, hs, ih]
      · simp [genLoopGo, hf, hs, ih]

/-- History effect of _generate_and_speak_response: exactly one assistant
turn is appended, carrying the response text assembled before the token
loop ended. -/
theorem generate_history_append (C : Collaborators) (intr : Option Nat)
    (st : SessionState) (user_input : List Char) :
    (generateAndSpeakResponse C intr st user_input).conversation_history =
      st.conversation_history ++
        [⟨Role.assistant,
          (genLoopGo C intr 0 [] []
            (C.route_message_stream (fullPrompt st user_input))).2.1,
          st.clock⟩] := rfl

/-- Claim C3 (amended): for every finite token stream, the concatenation
of all emitted SpeakableUnit texts in emission order, including the
end-of-stream flush, equals the concatenation of all fed tokens up to
whitespace: detect_sentence_boundary strips whitespace at unit
boundaries, so the whitespace-free content is reproduced exactly, with no
other character dropped or duplicated. -/
theorem segmenter_roundtrip_modulo_whitespace (toks : List (List Char)) :
    stripAllSpace (streamRun toks).flatten = stripAllSpace toks.flatten := by
  have h := streamFold_preserves toks [] []
  simp only [List.flatten_nil, List.nil_append] at h
  unfold streamRun
  by_cases hb : (pyStrip (toks.foldl streamStep ([], [])).2).isEmpty
  · have hnil : stripAllSpace (toks.foldl streamStep ([], [])).2 = [] :=
      stripAllSpace_of_pyStrip_nil _ (List.isEmpty_iff.mp hb)
    rw [stripAllSpace_append, hnil, List.append_nil] at h
    simp [hb, h]
  · rw [stripAllSpace_append] at h
    rw [if_pos hb, List.flatten_append, List.flatten_cons, List.flatten_nil,
      List.append_nil, stripAllSpace_append, stripAllSpace_pyStrip]
    exact h

/-- Claim C3 (counterexample): on the token stream of the boundary example
of the specification, the concatenation of the emitted units differs from
the concatenation of the fed tokens — the space between the two sentences
is dropped. -/
theorem segmenter_roundtrip_exact_fails :
    (streamRun [chars "Hello world. How are", chars " you?"]).flatten ≠
      ([chars "Hello world. How are", chars " you?"] : List (List Char)).flatten := by
  decide

/-- Claim C8 (amended): the forced oversize emission happens only at a
soft boundary.  A buffer and token without any sentence-ending or soft
punctuation produce no emission at all, whatever the buffer length: the
run-on text is retained in the buffer (it is only flushed at end of
stream), because the oversize branch has no arm that emits the buffer
verbatim when no soft boundary exists. -/
theorem run_on_without_punctuation_never_emits (buffer tok : List Char)
    (h : ∀ c ∈ buffer ++ tok, isSentEnd c = false ∧ isSoftEnd c = false) :
    streamFeedToken buffer tok = ([], buffer ++ tok) := by
  have hsent : splitAtBoundaries isSentEnd [] (buffer ++ tok) =
      ([], buffer ++ tok) := by
    unfold splitAtBoundaries
    simpa using splitB_no_punct isSentEnd (buffer ++ tok).length [] (buffer ++ tok)
      (fun c hc => (h c hc).1)
  have hdet : detect_sentence_boundary (buffer ++ tok) = ([], buffer ++ tok) := by
    unfold detect_sentence_boundary
    rw [hsent]
    simp
  have hsoft : splitAtBoundaries isSoftEnd [] (buffer ++ tok) =
      ([], buffer ++ tok) := by
    unfold splitAtBoundaries
    simpa using splitB_no_punct isSoftEnd (buffer ++ tok).length [] (buffer ++ tok)
      (fun c hc => (h c hc).2)
  simp only [streamFeedToken, hdet]
  split
  · rw [hsoft]
    simp
  · simp

/-- Claim C8 (amended, witness): a run-on input of 250 letters with no
punctuation at all passes the buffer cap untouched, with no emission. -/
theorem run_on_without_punctuation_never_emits_witness :
    (∀ c ∈ ([] : List Char) ++ List.replicate 250 'a',
        isSentEnd c = false ∧ isSoftEnd c = false) ∧
    streamFeedToken [] (List.replicate 250 'a') =
      ([], [] ++ List.replicate 250 'a') :=
  ⟨by decide, run_on_without_punctuation_never_emits [] (List.replicate 250 'a')
    (by decide)⟩

/-!
Theorems about the voice activity detectors.
-/

/-- Claim C5 (amended): EnhancedVoiceActivityDetector.process_audio_chunk
satisfies the frame-size invariant: a frame whose byte length differs
from the configured frame size yields (False, False, None) without
consulting the classifier and without any state change beyond the
total-frames diagnostic counter, and the call always returns normally.
The plain VoiceActivityDetector has no such guard (see the
counterexample theorem). -/
theorem enhanced_vad_wrong_size_noop (cls : List Int → Nat → Option Bool)
    (now : Frac) (st : EnhancedVADState) (audio_chunk : List Int)
    (h : audio_chunk.length ≠ st.frame_bytes) :
    EnhancedVADState.process_audio_chunk cls now st audio_chunk =
      ({ st with stats_total_frames := st.stats_total_frames + 1 },
        (false, false, none)) := by
  unfold EnhancedVADState.process_audio_chunk
  simp [h]

/-- Claim C5 (amended, witness): a five-byte frame against the default
960-byte frame size of a 16 kHz, 30 ms detector. -/
theorem enhanced_vad_wrong_size_noop_witness :
    (List.replicate 5 (0 : Int)).length ≠
        (EnhancedVADState.init 16000 30).frame_bytes ∧
    EnhancedVADState.process_audio_chunk (fun _ _ => some true) ⟨1, 1⟩
        (EnhancedVADState.init 16000 30) (List.replicate 5 0) =
      ({ EnhancedVADState.init 16000 30 with stats_total_frames := 1 },
        (false, false, none)) :=
  ⟨by decide, enhanced_vad_wrong_size_noop (fun _ _ => some true) ⟨1, 1⟩
    (EnhancedVADState.init 16000 30) (List.replicate 5 0) (by decide)⟩

/-- Claim C5 (counterexample): VoiceActivityDetector.process_audio_chunk
performs no frame-size validation and does not guard the classifier call,
so on a 100-byte frame (not a valid 10/20/30 ms frame at 16 kHz) the
webrtcvad classifier raises and the exception propagates out of the
detector instead of a Silence result being returned. -/
theorem plain_vad_wrong_size_raises :
    VADState.process_audio_chunk webrtcIsSpeech VADState.init
      (List.replicate 100 (0 : Int)) = none := by
  decide

/-- Claim C6 (amended): in the in-speech state of
EnhancedVoiceActivityDetector.process_audio_chunk, a frame classified as
silence is never appended to the utterance buffer: it goes to the
separate silence_frames list only, so after processing such a frame the
utterance buffer is unchanged (or cleared, on the end-of-utterance and
too-short-reset paths).  The SpeechCompleted payload is the concatenation
of speech-classified frames alone. -/
theorem enhanced_vad_silence_not_in_utterance
    (cls : List Int → Nat → Option Bool) (now : Frac)
    (st : EnhancedVADState) (audio_chunk : List Int)
    (h : cls audio_chunk st.sample_rate = some false) :
    (EnhancedVADState.process_audio_chunk cls now st audio_chunk).1.speech_frames =
        st.speech_frames ∨
    (EnhancedVADState.process_audio_chunk cls now st audio_chunk).1.speech_frames =
        [] := by
  simp only [EnhancedVADState.process_audio_chunk]
  rw [h]
  dsimp only
  repeat' split
  all_goals try (left; rfl)
  all_goals try (right; rfl)
  all_goals simp_all

/-- Claim C6 (amended, witness): a silence frame of the right size fed to
a fresh 100 Hz detector leaves the empty utterance buffer unchanged. -/
theorem enhanced_vad_silence_not_in_utterance_witness :
    ((fun _ _ => some false) : List Int → Nat → Option Bool)
        (List.replicate 6 (0 : Int)) (EnhancedVADState.init 100 30).sample_rate =
      some false ∧
    ((EnhancedVADState.process_audio_chunk (fun _ _ => some false) ⟨1, 1⟩
        (EnhancedVADState.init 100 30) (List.replicate 6 0)).1.speech_frames =
          (EnhancedVADState.init 100 30).speech_frames ∨
      (EnhancedVADState.process_audio_chunk (fun _ _ => some false) ⟨1, 1⟩
        (EnhancedVADState.init 100 30) (List.replicate 6 0)).1.speech_frames = []) :=
  ⟨rfl, enhanced_vad_silence_not_in_utterance (fun _ _ => some false) ⟨1, 1⟩
    (EnhancedVADState.init 100 30) (List.replicate 6 0) rfl⟩

/-- Frame classifier used in the concrete VAD runs: a frame is speech
exactly when its first byte is 1. -/
def clsHead (f : List Int) (_ : Nat) : Option Bool := some (f.head? = some 1)

/-- Feed a list of timestamped frames to an enhanced detector, returning
the final state and the result of the last call. -/
def vadFeed (cls : List Int → Nat → Option Bool)
    (st : EnhancedVADState) (frames : List (Frac × List Int)) :
    EnhancedVADState × (Bool × Bool × Option (List Int)) :=
  frames.foldl
    (fun acc f => EnhancedVADState.process_audio_chunk cls f.1 acc.1 f.2)
    (st, (false, false, none))

/-- Input of the concrete run: eight speech frames then thirty-three
silence frames, at one-second ticks, sized for a 100 Hz, 30 ms detector.
Thirty-three silences are needed because the end bound is the IEEE value
of 1 - 0.8, strictly below one fifth: the ratio 8/40 after thirty-two
silences does not end the utterance, the ratio 8/41 does. -/
def c6Frames : List (Frac × List Int) :=
  (List.range 8).map (fun k => (Frac.ofNat (k + 1), List.replicate 6 (1 : Int))) ++
    (List.range 33).map (fun k => (Frac.ofNat (k + 9), List.replicate 6 (0 : Int)))

/-- Claim C6 (counterexample): after the eight speech frames and the first
silence frame the detector is in speech, and at the end of the run it
emits SpeechCompleted; but the payload is exactly the 48 speech bytes -
the 33 silence frames fed while in speech (all zero bytes) are excluded
from the utterance, where the claim requires every in-speech frame to be
appended to the buffer and the payload to carry the trailing silence. -/
theorem enhanced_vad_silence_excluded_from_payload :
    (vadFeed clsHead (EnhancedVADState.init 100 30) (c6Frames.take 9)).1.is_in_speech =
        true ∧
    (vadFeed clsHead (EnhancedVADState.init 100 30) c6Frames).2 =
      (false, true, some (List.replicate 48 (1 : Int))) ∧
    (0 : Int) ∉ List.replicate 48 (1 : Int) := by
  decide

/-- Claim C8 (counterexample): feeding a single run-on token of 450
letters with no punctuation emits nothing although the buffer is past the
200-character cap by more than the 200-character margin; no unit is ever
force-emitted. -/
theorem run_on_cap_exceeded_without_emission :
    (streamFeedToken [] (List.replicate 450 'a')).1 = [] ∧
    (streamFeedToken [] (List.replicate 450 'a')).2.length = 450 ∧
    max_chunk_size < 450 := by
  decide

/-!
Theorems about the conversation session.
-/

/-- Claim C9 (amended): only an exactly-empty transcription text makes
_handle_user_speech return with no further action: no history append, no
transcript event, no response generation — the session state is returned
unchanged.  (A whitespace-only text is truthy in Python and is processed
as a normal turn; see the counterexample theorem.) -/
theorem empty_transcript_ignored (C : Collaborators) (st : SessionState)
    (audio_data : List Int) (h : C.transcribe audio_data = []) :
    handleUserSpeech C st audio_data = st := by
  simp [handleUserSpeech, h]

/-- Collaborators whose transcription is always empty. -/
def silentC : Collaborators :=
  { transcribe := fun _ => []
    route_message_stream := fun _ => []
    synthesize_speech := fun t => t }

/-- Claim C9 (amended, witness). -/
theorem empty_transcript_ignored_witness :
    silentC.transcribe [1] = [] ∧
    handleUserSpeech silentC (initSession []) [1] = initSession [] :=
  ⟨rfl, empty_transcript_ignored silentC (initSession []) [1] rfl⟩

/-- Collaborators whose transcription is a single space. -/
def wsC : Collaborators :=
  { transcribe := fun _ => [' ']
    route_message_stream := fun _ => [chars "Yes."]
    synthesize_speech := fun t => t }

/-- Claim C9 (counterexample): a whitespace-only transcription is not
ignored: _handle_user_speech appends a user turn holding the single
space, sends the transcript event, and generates and speaks a response
(the falsiness test `if not transcription.text` only catches the empty
string). -/
theorem whitespace_transcript_processed :
    (handleUserSpeech wsC (initSession []) [1]).conversation_history =
      [⟨Role.user, [' '], ⟨0, 1⟩⟩, ⟨Role.assistant, chars "Yes.", ⟨0, 1⟩⟩] ∧
    OutMsg.user_transcript [' '] ∈ (handleUserSpeech wsC (initSession []) [1]).out ∧
    OutMsg.ai_audio (chars "Yes.") (chars "Yes.") ∈
      (handleUserSpeech wsC (initSession []) [1]).out := by
  decide

/-- Claim C7 (amended): when the token-consumption loop of
_generate_and_speak_response is interrupted after j tokens (the
is_ai_speaking flag flipped externally, as _handle_interruption would),
the partial response text — the concatenation of the j consumed tokens —
IS appended to the conversation history as an assistant turn; the history
is not left unchanged. -/
theorem interruption_appends_partial_response (C : Collaborators)
    (st : SessionState) (user_input : List Char) (j : Nat) :
    (generateAndSpeakResponse C (some j) st user_input).conversation_history =
      st.conversation_history ++
        [⟨Role.assistant,
          ((C.route_message_stream (fullPrompt st user_input)).take j).flatten,
          st.clock⟩] := by
  rw [generate_history_append, genLoopGo_response]
  simp [takeCount]

/-- Collaborators for the concrete interruption run: a two-token
response. -/
def c7C : Collaborators :=
  { transcribe := fun _ => chars "hi"
    route_message_stream := fun _ => [chars "Hello. ", chars "World."]
    synthesize_speech := fun t => t }

/-- Claim C7 (counterexample): interrupting the two-token response after
its first token records an assistant turn holding the partial text
"Hello. " in the history (and still sends the completion signal), where
the claim requires the history to be unchanged by an abandoned
response. -/
theorem interrupted_partial_response_recorded :
    (generateAndSpeakResponse c7C (some 1) (initSession [])
        (chars "hi")).conversation_history =
      [⟨Role.assistant, chars "Hello. ", ⟨0, 1⟩⟩] ∧
    OutMsg.ai_complete (chars "Hello. ") ∈
      (generateAndSpeakResponse c7C (some 1) (initSession []) (chars "hi")).out := by
  decide

/-- Claim C4 (amended): a completed turn appends one user and one
assistant turn to the conversation history, retaining every earlier turn:
the stored history is never truncated to the cap (only the context string
built for the LLM is restricted to the last ten turns). -/
theorem completed_turn_appends_without_truncation (C : Collaborators)
    (st : SessionState) (audio_data : List Int)
    (h : ¬ (C.transcribe audio_data).isEmpty) :
    ∃ resp, (handleUserSpeech C st audio_data).conversation_history =
      st.conversation_history ++
        [⟨Role.user, C.transcribe audio_data, st.clock⟩,
          ⟨Role.assistant, resp, st.clock⟩] := by
  refine ⟨(genLoopGo C none 0 [] [] (C.route_message_stream (fullPrompt
    { st with
        conversation_history := st.conversation_history ++
          [⟨Role.user, C.transcribe audio_data, st.clock⟩],
        out := st.out ++ [OutMsg.user_transcript (C.transcribe audio_data)] }
    (C.transcribe audio_data)))).2.1, ?_⟩
  simp only [handleUserSpeech]
  rw [if_neg h, generate_history_append]
  simp

/-- Collaborators for the history-growth runs: fixed transcript and a
one-sentence response. -/
def c4C : Collaborators :=
  { transcribe := fun _ => chars "hi"
    route_message_stream := fun _ => [chars "ok."]
    synthesize_speech := fun t => t }

/-- Claim C4 (amended, witness). -/
theorem completed_turn_appends_without_truncation_witness :
    ¬ (c4C.transcribe [1]).isEmpty ∧
    ∃ resp, (handleUserSpeech c4C (initSession []) [1]).conversation_history =
      (initSession []).conversation_history ++
        [⟨Role.user, c4C.transcribe [1], (initSession []).clock⟩,
          ⟨Role.assistant, resp, (initSession []).clock⟩] :=
  ⟨by decide, completed_turn_appends_without_truncation c4C (initSession []) [1]
    (by decide)⟩

/-- Session state after the greeting and n completed turns. -/
def c4AfterTurns : Nat → SessionState
  | 0 => sendGreeting c4C (initSession [])
  | n + 1 => handleUserSpeech c4C (c4AfterTurns n) [1]

/-- Claim C4 (counterexample): after fifteen completed turns the retained
history holds thirty-one turns (greeting plus fifteen user/assistant
pairs), well above the cap of ten — the history is not capped; only the
ten-turn window handed to the LLM context is. -/
theorem history_exceeds_cap_after_15_turns :
    (c4AfterTurns 15).conversation_history.length = 31 ∧
    ¬ ((c4AfterTurns 15).conversation_history.length ≤ 10) ∧
    (recentHistory (c4AfterTurns 15).conversation_history).length = 10 := by
  decide

/-- Claim C2 (amended): an exception in one loop iteration is caught at
the loop boundary and never propagates, but the handler then breaks: the
loop terminates instead of skipping the iteration.  A receive-side
exception ends the receive loop with the shared buffer untouched, and a
process-side exception (here: the VAD raising on a popped chunk) ends the
process loop. -/
theorem loop_exception_breaks_loop (C : Collaborators)
    (cls : List Int → Nat → Option Bool) (st st2 : SessionState)
    (chunk : List Int) (rest : List (List Int))
    (h1 : st.inbox.head? = some InMsg.malformed)
    (h2 : st2.audio_buffer = chunk :: rest)
    (h3 : st2.is_ai_speaking = false)
    (h4 : cls chunk st2.vad.sample_rate = none) :
    ((recvIter st).recvDone = true ∧
      (recvIter st).audio_buffer = st.audio_buffer) ∧
    procIter C cls st2 = { st2 with audio_buffer := rest, procDone := true } := by
  constructor
  · cases hin : st.inbox with
    | nil => rw [hin] at h1; cases h1
    | cons m t =>
      rw [hin] at h1
      cases m <;> simp_all [recvIter]
  · simp only [procIter, h2]
    rw [if_pos (by simp [h3])]
    simp only [VADState.process_audio_chunk, h4]

/-- Claim C2 (amended, witness): a malformed first message kills the
receive loop of a fresh session, and a frame the classifier raises on
kills the process loop. -/
theorem loop_exception_breaks_loop_witness :
    (((initSession [InMsg.malformed]).inbox.head? = some InMsg.malformed) ∧
      ({ initSession [] with audio_buffer := [[9]] } : SessionState).audio_buffer =
        [9] :: [] ∧
      ({ initSession [] with audio_buffer := [[9]] } : SessionState).is_ai_speaking =
        false ∧
      ((fun _ _ => none) : List Int → Nat → Option Bool) [9]
          ({ initSession [] with audio_buffer := [[9]] } : SessionState).vad.sample_rate =
        none) ∧
    ((recvIter (initSession [InMsg.malformed])).recvDone = true ∧
      (recvIter (initSession [InMsg.malformed])).audio_buffer =
        (initSession [InMsg.malformed]).audio_buffer) ∧
    procIter silentC (fun _ _ => none)
        { initSession [] with audio_buffer := [[9]] } =
      { ({ initSession [] with audio_buffer := [[9]] } : SessionState) with
          audio_buffer := [], procDone := true } :=
  ⟨⟨rfl, rfl, rfl, rfl⟩,
    loop_exception_breaks_loop silentC (fun _ _ => none)
      (initSession [InMsg.malformed])
      { initSession [] with audio_buffer := [[9]] } [9] [] rfl rfl rfl rfl⟩

/-- Loop runner for _receive_audio_stream: iterate the receive-loop body
until the loop has exited or the fuel runs out. -/
def recvLoopRun : Nat → SessionState → SessionState
  | 0, st => st
  | n + 1, st => if st.recvDone then st else recvLoopRun n (recvIter st)

/-- Claim C2 (counterexample): with a malformed message followed by an
audio chunk, the receive loop terminates at the exception: the chunk
behind it is never received (the buffer stays empty and the message stays
in the transport), where the claim requires the iteration to be skipped
and the loop to continue. -/
theorem receive_loop_killed_by_exception :
    (recvLoopRun 5 (initSession [InMsg.malformed, InMsg.audio_chunk [1]])).recvDone =
        true ∧
    (recvLoopRun 5 (initSession [InMsg.malformed, InMsg.audio_chunk [1]])).audio_buffer =
        [] ∧
    (recvLoopRun 5 (initSession [InMsg.malformed, InMsg.audio_chunk [1]])).inbox =
      [InMsg.audio_chunk [1]] := by
  decide

/-!
Step invariants of the interleaved session, used for the global theorems
about the greeting and about interruption.
-/

/-- Head of an extended list. -/
theorem head?_append_of_some {α : Type} {g : α} {l1 : List α} (l2 : List α)
    (h : l1.head? = some g) : (l1 ++ l2).head? = some g := by
  cases l1 <;> simp_all

/-- A receive-loop iteration never changes the history, the out list or
the speaking flag. -/
theorem recvIter_frame (st : SessionState) :
    (recvIter st).conversation_history = st.conversation_history ∧
    (recvIter st).out = st.out ∧
    (recvIter st).is_ai_speaking = st.is_ai_speaking := by
  unfold recvIter
  cases hin : st.inbox with
  | nil => exact ⟨rfl, rfl, rfl⟩
  | cons m t => cases m <;> exact ⟨rfl, rfl, rfl⟩

/-- Step invariant of the keepalive check: history and flag unchanged,
out extended by at most a ping. -/
theorem procTimeoutCheck_inv (st : SessionState) (m : OutMsg) :
    (procTimeoutCheck st).conversation_history = st.conversation_history ∧
    (procTimeoutCheck st).is_ai_speaking = st.is_ai_speaking ∧
    (st.out.head? = some m → (procTimeoutCheck st).out.head? = some m) ∧
    (OutMsg.ai_interrupted ∈ (procTimeoutCheck st).out →
      OutMsg.ai_interrupted ∈ st.out) := by
  unfold procTimeoutCheck
  split
  · refine ⟨rfl, rfl, fun h => head?_append_of_some _ h, fun h => ?_⟩
    rcases List.mem_append.mp h with h | h
    · exact h
    · simp at h
  · exact ⟨rfl, rfl, fun h => h, fun h => h⟩

/-- Step invariant of _generate_and_speak_response: the speaking flag is
down afterwards, the heads of the out list and of the history are
preserved, and no interruption signal is emitted. -/
theorem generate_inv (C : Collaborators) (intr : Option Nat)
    (st : SessionState) (u : List Char) (m : OutMsg) (g : Turn) :
    (generateAndSpeakResponse C intr st u).is_ai_speaking = false ∧
    (st.out.head? = some m →
      (generateAndSpeakResponse C intr st u).out.head? = some m) ∧
    (st.conversation_history.head? = some g →
      (generateAndSpeakResponse C intr st u).conversation_history.head? = some g) ∧
    (OutMsg.ai_interrupted ∈ (generateAndSpeakResponse C intr st u).out →
      OutMsg.ai_interrupted ∈ st.out) := by
  refine ⟨rfl, ?_, ?_, ?_⟩
  · simp only [generateAndSpeakResponse]
    split
    · exact fun h => head?_append_of_some _ (head?_append_of_some _ h)
    · exact fun h => head?_append_of_some _ (head?_append_of_some _ h)
  · rw [generate_history_append]
    exact fun h => head?_append_of_some _ h
  · simp only [generateAndSpeakResponse]
    split
    · intro h
      rcases List.mem_append.mp h with h | h
      · rcases List.mem_append.mp h with h | h
        · exact h
        · rcases List.mem_append.mp h with h | h
          · exact absurd h (genLoopGo_no_interruption C intr _ 0 [] [])
          · simp at h
      · simp at h
    · intro h
      rcases List.mem_append.mp h with h | h
      · rcases List.mem_append.mp h with h | h
        · exact h
        · exact absurd h (genLoopGo_no_interruption C intr _ 0 [] [])
      · simp at h

/-- Step invariant of _handle_user_speech, given the flag is down at
entry. -/
theorem handleUserSpeech_inv (C : Collaborators) (st : SessionState)
    (a : List Int) (m : OutMsg) (g : Turn) (h1 : st.is_ai_speaking = false) :
    (handleUserSpeech C st a).is_ai_speaking = false ∧
    (st.out.head? = some m → (handleUserSpeech C st a).out.head? = some m) ∧
    (st.conversation_history.head? = some g →
      (handleUserSpeech C st a).conversation_history.head? = some g) ∧
    (OutMsg.ai_interrupted ∈ (handleUserSpeech C st a).out →
      OutMsg.ai_interrupted ∈ st.out) := by
  simp only [handleUserSpeech]
  split
  · exact ⟨h1, fun h => h, fun h => h, fun h => h⟩
  · obtain ⟨hf, hout, hhist, hmem⟩ := generate_inv C none
      { st with
          conversation_history := st.conversation_history ++
            [⟨Role.user, C.transcribe a, st.clock⟩],
          out := st.out ++ [OutMsg.user_transcript (C.transcribe a)] }
      (C.transcribe a) m g
    refine ⟨hf, ?_, ?_, ?_⟩
    · exact fun h => hout (head?_append_of_some _ h)
    · exact fun h => hhist (head?_append_of_some _ h)
    · intro h
      have h2 := hmem h
      rcases List.mem_append.mp h2 with h2 | h2
      · exact h2
      · simp at h2

/-- Step invariant of one process-loop iteration, given the flag is down
at entry: it is down afterwards, heads of out and history are preserved,
and no interruption signal is emitted (the _handle_interruption branch is
unreachable, because it requires the flag to be up). -/
theorem procIter_inv (C : Collaborators)
    (cls : List Int → Nat → Option Bool) (st : SessionState) (m : OutMsg)
    (g : Turn) (h1 : st.is_ai_speaking = false) :
    (procIter C cls st).is_ai_speaking = false ∧
    (st.out.head? = some m → (procIter C cls st).out.head? = some m) ∧
    (st.conversation_history.head? = some g →
      (procIter C cls st).conversation_history.head? = some g) ∧
    (OutMsg.ai_interrupted ∈ (procIter C cls st).out →
      OutMsg.ai_interrupted ∈ st.out) := by
  have hTO : ∀ s : SessionState, s.is_ai_speaking = false →
      (procTimeoutCheck s).is_ai_speaking = false := by
    intro s hs
    obtain ⟨_, hf, _, _⟩ := procTimeoutCheck_inv s m
    exact hf.trans hs
  simp only [procIter]
  split
  · split
    · obtain ⟨hh, hf, hout, hmem⟩ := procTimeoutCheck_inv st m
      refine ⟨hf.trans h1, hout, fun h => ?_, hmem⟩
      rw [hh]; exact h
    · rename_i chunk rest heq
      split
      · exact ⟨h1, fun h => h, fun h => h, fun h => h⟩
      · rename_i vad2 res hv
        split
        · obtain ⟨hf2, hout2, hhist2, hmem2⟩ := handleUserSpeech_inv C
            { st with audio_buffer := rest, vad := vad2 } (res.2.2.getD []) m g h1
          obtain ⟨hh3, hf3, hout3, hmem3⟩ := procTimeoutCheck_inv
            (handleUserSpeech C { st with audio_buffer := rest, vad := vad2 }
              (res.2.2.getD [])) m
          refine ⟨hf3.trans hf2, fun h => hout3 (hout2 h),
            fun h => ?_, fun h => hmem2 (hmem3 h)⟩
          rw [hh3]
          exact hhist2 h
        · split
          · split
            · simp_all
            · obtain ⟨hh3, hf3, hout3, hmem3⟩ := procTimeoutCheck_inv
                { st with audio_buffer := rest, vad := vad2 } m
              refine ⟨hf3.trans h1, hout3, fun h => ?_, hmem3⟩
              rw [hh3]; exact h
          · obtain ⟨hh3, hf3, hout3, hmem3⟩ := procTimeoutCheck_inv
              { st with audio_buffer := rest, vad := vad2 } m
            refine ⟨hf3.trans h1, hout3, fun h => ?_, hmem3⟩
            rw [hh3]; exact h
  · obtain ⟨hh, hf, hout, hmem⟩ := procTimeoutCheck_inv st m
    refine ⟨hf.trans h1, hout, fun h => ?_, hmem⟩
    rw [hh]; exact h

/-- Step invariant of one scheduled transition. -/
theorem sessionStep_inv (C : Collaborators)
    (cls : List Int → Nat → Option Bool) (st : SessionState) (s : Sched)
    (m : OutMsg) (g : Turn) (h1 : st.is_ai_speaking = false) :
    (sessionStep C cls st s).is_ai_speaking = false ∧
    (st.out.head? = some m → (sessionStep C cls st s).out.head? = some m) ∧
    (st.conversation_history.head? = some g →
      (sessionStep C cls st s).conversation_history.head? = some g) ∧
    (OutMsg.ai_interrupted ∈ (sessionStep C cls st s).out →
      OutMsg.ai_interrupted ∈ st.out) := by
  cases s with
  | recv dt =>
    simp only [sessionStep]
    split
    · exact ⟨h1, fun h => h, fun h => h, fun h => h⟩
    · obtain ⟨hh, hout, hf⟩ := recvIter_frame
        { st with clock := Frac.add st.clock dt }
      refine ⟨hf.trans h1, fun h => ?_, fun h => ?_, fun h => ?_⟩
      · rw [hout]; exact h
      · rw [hh]; exact h
      · rw [hout] at h; exact h
  | proc dt =>
    simp only [sessionStep]
    split
    · exact ⟨h1, fun h => h, fun h => h, fun h => h⟩
    · exact procIter_inv C cls { st with clock := Frac.add st.clock dt } m g h1

/-- Invariant carried along any schedule from any state with the flag
down: the flag stays down, the heads of out and history are preserved,
and no interruption signal ever appears. -/
theorem sessionRun_inv (C : Collaborators)
    (cls : List Int → Nat → Option Bool) (m : OutMsg) (g : Turn) :
    ∀ (l : List Sched) (st : SessionState), st.is_ai_speaking = false →
      ((l.foldl (sessionStep C cls) st).is_ai_speaking = false ∧
        (st.out.head? = some m →
          (l.foldl (sessionStep C cls) st).out.head? = some m) ∧
        (st.conversation_history.head? = some g →
          (l.foldl (sessionStep C cls) st).conversation_history.head? = some g) ∧
        (OutMsg.ai_interrupted ∈ (l.foldl (sessionStep C cls) st).out →
          OutMsg.ai_interrupted ∈ st.out)) := by
  intro l
  induction l with
  | nil => exact fun st h1 => ⟨h1, fun h => h, fun h => h, fun h => h⟩
  | cons a l ih =>
    intro st h1
    obtain ⟨hf, hout, hhist, hmem⟩ := sessionStep_inv C cls st a m g h1
    obtain ⟨hf2, hout2, hhist2, hmem2⟩ := ih (sessionStep C cls st a) hf
    exact ⟨hf2, fun h => hout2 (hout h), fun h => hhist2 (hhist h),
      fun h => hmem (hmem2 h)⟩

/-- Claim C1: the interruption transition never fires.  Whatever the
collaborators, the classifier, the inbound transport traffic and the
interleaving schedule, no ai_interrupted notification is ever emitted by
a session: the process loop only pops audio when is_ai_speaking is false,
and response generation runs inline in the process task and always
lowers the flag before the loop regains control, so the
_handle_interruption branch (which requires the flag to be up at the top
of an iteration) is unreachable.  Speech arriving while the assistant
speaks only accumulates in the buffer and is handled later as an
ordinary turn. -/
theorem no_interruption_is_ever_emitted (C : Collaborators)
    (cls : List Int → Nat → Option Bool) (inbox : List InMsg)
    (scheds : List Sched) :
    OutMsg.ai_interrupted ∉ (startContinuousSession C cls inbox scheds).out := by
  intro hmem
  have h := (sessionRun_inv C cls OutMsg.ai_interrupted
    ⟨Role.assistant, greetingText, ⟨0, 1⟩⟩ scheds
    (sendGreeting C (initSession inbox)) rfl).2.2.2 hmem
  simp [sendGreeting, initSession] at h

/-- Claim C10: in every reachable state of a session, along any schedule,
the first entry of the conversation history is the assistant greeting
turn recorded by _send_greeting before the loops start, and the first
message sent on the transport is the synthesized greeting: the greeting
precedes any processing of inbound audio, the history is never empty from
Listening on, its first turn always has the assistant role, and the
greeting occupies a slot of the history from which
_build_conversation_context takes its most-recent-ten window. -/
theorem greeting_always_first (C : Collaborators)
    (cls : List Int → Nat → Option Bool) (inbox : List InMsg)
    (scheds : List Sched) :
    (startContinuousSession C cls inbox scheds).conversation_history.head? =
      some ⟨Role.assistant, greetingText, ⟨0, 1⟩⟩ ∧
    (startContinuousSession C cls inbox scheds).out.head? =
      some (OutMsg.greeting greetingText (C.synthesize_speech greetingText)) := by
  have h := sessionRun_inv C cls
    (OutMsg.greeting greetingText (C.synthesize_speech greetingText))
    ⟨Role.assistant, greetingText, ⟨0, 1⟩⟩ scheds
    (sendGreeting C (initSession inbox)) rfl
  exact ⟨h.2.2.1 rfl, h.2.1 rfl⟩

end Aura
